import Mathlib

/-!
# Lead-qualifier scoring pipeline: verification development

Shallow embedding of the lead-scoring pipeline of the `lead-qualifier`
repository:

* `src/shared/schema.ts` — the data model (`Lead`, `ProcessedLead`,
  `ProcessingStats`, `BusinessSetup`);
* `src/server/routes.ts` — the `/api/analyze-lead` route: response
  validation/sanitization of the AI payload and the server-side rule
  fallback (the file contains two concatenated versions of
  `registerRoutes`; both validators are embedded);
* `src/client/src/lib/lead-processor.ts` — `processLead` (AI call,
  timeout-retry, rule fallback, ultimate fallback) and `processLeads`
  (the batch orchestrator and statistics aggregation).

JavaScript numbers that flow through JSON are modelled as `ℚ` (JSON
cannot encode `NaN`/`Infinity`); sanitized scores are `ℤ`.  The
nondeterministic outside world (network, AI service) is an explicit
environment parameter: one `LeadEnv` value per lead describes what the
single `fetch('/api/analyze-lead')` for that lead observed, and the AI
service behind the server route is an `Option Json` (`none` = the AI
call failed all attempts or its content did not parse as JSON).
-/

namespace LeadQualifier

/-- `Lead` from `src/shared/schema.ts` (`leadSchema`): a required `id`
and optional contact/firmographic fields.  `additionalData` is an
open-ended record; its values are only ever echoed into the AI prompt,
so we model it as an association list of strings. -/
structure Lead where
  id : String
  companyName : Option String := none
  email : Option String := none
  phone : Option String := none
  industry : Option String := none
  companySize : Option String := none
  title : Option String := none
  contactName : Option String := none
  website : Option String := none
  revenue : Option String := none
  additionalData : Option (List (String × String)) := none
deriving DecidableEq, Repr

/-- `ProcessedLead` from `src/shared/schema.ts`: a `Lead` extended with
exactly the four judgment fields (`processedLeadSchema = leadSchema.extend`). -/
structure ProcessedLead extends Lead where
  score : ℤ
  qualified : Bool
  reasoning : String
  qualificationCriteria : List String
deriving DecidableEq, Repr

/-- `BusinessSetup` from `src/shared/schema.ts` (the qualification
rubric: two free-text fields). -/
structure BusinessSetup where
  businessDescription : String
  campaignGoals : String
deriving DecidableEq, Repr

/-- `ProcessingStats` from `src/shared/schema.ts`.  The two ratio
fields are JavaScript floats; we model them as `ℚ`. -/
structure ProcessingStats where
  totalLeads : ℕ
  processedLeads : ℕ
  qualifiedLeads : ℕ
  notQualifiedLeads : ℕ
  averageScore : ℚ
  qualificationRate : ℚ
deriving DecidableEq, Repr

/-- The judgment tuple produced by the server route
(`{score, qualified, reasoning, qualificationCriteria}`). -/
structure Judgment where
  score : ℤ
  qualified : Bool
  reasoning : String
  qualificationCriteria : List String
deriving DecidableEq, Repr

/-- Parsed JSON values, as produced by `JSON.parse` on the AI service's
reply.  JSON numbers are rationals (JSON has no `NaN`/`Infinity`). -/
inductive Json where
  | null
  | bool (b : Bool)
  | num (q : ℚ)
  | str (s : String)
  | arr (elems : List Json)
  | obj (fields : List (String × Json))
deriving Repr

/-- JavaScript property access `o.k` on a parsed JSON value: `none`
models `undefined`. -/
def Json.getField : Json → String → Option Json
  | .obj fs, k => fs.lookup k
  | _, _ => none

/-- JavaScript truthiness of a parsed JSON value. -/
def Json.truthy : Json → Bool
  | .null => false
  | .bool b => b
  | .num q => decide (q ≠ 0)
  | .str s => decide (s ≠ "")
  | .arr _ => true
  | .obj _ => true

/-- `typeof c === 'string'` extraction used by array sanitizers. -/
def Json.asStr : Json → Option String
  | .str s => some s
  | _ => none

/-- `Math.round` on a JSON number: round half toward positive infinity. -/
def jsRound (q : ℚ) : ℤ := ⌊q + 1/2⌋

/-- `Math.max(0, Math.min(100, x))` — the clamp applied to every score. -/
def clamp (x : ℤ) : ℤ := max 0 (min 100 x)

/-- `s.substring(0, n)` (code points; only used to truncate reasoning). -/
def jsSubstring (s : String) (n : ℕ) : String := String.mk (s.toList.take n)

/-- JavaScript `String.prototype.trim`, modelled on the character list
(core `String.trim` is definitionally opaque to the kernel). -/
def jsTrim (s : String) : String :=
  String.mk (((s.toList.dropWhile Char.isWhitespace).reverse.dropWhile
    Char.isWhitespace).reverse)

/-- JavaScript `String.prototype.toLowerCase`, modelled characterwise. -/
def jsToLower (s : String) : String := String.mk (s.toList.map Char.toLower)

/-- Truthiness of an optional string field of a `Lead`
(`undefined` and `""` are falsy). -/
def optTruthy : Option String → Bool
  | some s => decide (s ≠ "")
  | none => false

/-- `sub` occurs as a contiguous substring of `s`
(JavaScript `String.prototype.includes`). -/
def strIncludes (s sub : String) : Bool := decide (List.IsInfix sub.toList s.toList)

/-- `field && field.toLowerCase().includes(sub)` on an optional string. -/
def optIncludes (o : Option String) (sub : String) : Bool :=
  match o with
  | some s => decide (s ≠ "") && strIncludes (jsToLower s) sub
  | none => false

/-! ## Server: response validator/sanitizer (`src/server/routes.ts`, first
`registerRoutes`, lines 163–181) -/

/-- Validate/sanitize the parsed AI payload (`routes.ts` 163–181):
score defaulted to 50 when non-numeric, rounded and clamped to `[0,100]`
otherwise; `qualified` taken verbatim when boolean, else derived from the
sanitized score via the threshold 60; reasoning trimmed/truncated to 500
with a generic default for empty/non-string; criteria filtered to
non-blank strings, capped at 5, each trimmed. -/
def serverValidate (analysis : Json) : Judgment :=
  let score : ℤ :=
    match analysis.getField "score" with
    | some (.num q) => clamp (jsRound q)
    | _ => 50
  let qualified : Bool :=
    match analysis.getField "qualified" with
    | some (.bool b) => b
    | _ => decide (score ≥ 60)
  let reasoning : String :=
    match analysis.getField "reasoning" with
    | some (.str s) =>
        if jsTrim s ≠ "" then jsSubstring (jsTrim s) 500
        else "AI analysis completed successfully."
    | _ => "AI analysis completed successfully."
  let criteria : List String :=
    match analysis.getField "qualificationCriteria" with
    | some (.arr xs) =>
        ((xs.filterMap fun c =>
            match c with
            | .str s => if jsTrim s ≠ "" then some s else none
            | _ => none).take 5).map jsTrim
    | _ => []
  ⟨score, qualified, reasoning, criteria⟩

/-- Server-side rule fallback (`routes.ts` 209–237, the catch branch of
the first `registerRoutes`): base 50, +10 tech industry, +15 enterprise
size, +20 ceo/founder title, +5 phone-or-email; qualified at 60;
clamped. -/
def serverFallback (lead : Lead) : Judgment :=
  let b1 := optIncludes lead.industry "tech"
  let b2 := optIncludes lead.companySize "enterprise"
  let b3 :=
    match lead.title with
    | some t => decide (t ≠ "") &&
        (strIncludes (jsToLower t) "ceo" || strIncludes (jsToLower t) "founder")
    | none => false
  let b4 := optTruthy lead.phone || optTruthy lead.email
  let score : ℤ := 50 + (if b1 then 10 else 0) + (if b2 then 15 else 0) +
    (if b3 then 20 else 0) + (if b4 then 5 else 0)
  let criteria : List String :=
    (if b1 then ["Tech industry"] else []) ++
    (if b2 then ["Enterprise size"] else []) ++
    (if b3 then ["Executive contact"] else []) ++
    (if b4 then ["Contact info available"] else [])
  { score := clamp score
    qualified := decide (score ≥ 60)
    reasoning := "AI analysis temporarily unavailable. Score based on lead qualification rules."
    qualificationCriteria := criteria }

/-- One round trip through the server route (first `registerRoutes`),
for a request that passed the zod/contact-info validation: `some j`
means the AI call succeeded within the retry budget and its content
parsed as JSON `j` (then the validator runs); `none` means retries were
exhausted or the content failed to parse (then the catch branch runs the
server rule fallback).  Either way the route answers HTTP 200 with the
judgment as its JSON body. -/
def serverJudge (lead : Lead) (ai : Option Json) : Judgment :=
  match ai with
  | some analysis => serverValidate analysis
  | none => serverFallback lead

/-- Second `registerRoutes` version (`routes.ts` 329–344): here
`score = clamp(round(analysis.score || 50))` (a falsy score — absent,
null, or 0 — becomes 50) and
`qualified = (analysis.qualified === true) || score >= 60`, so an
explicit `false` is overridden whenever the score reaches the threshold.
The embedding covers payloads whose `score` field is a number or absent
/null/false (for truthy non-number scores the JavaScript coerces or
produces `NaN`; the service is prompted to return a number and the first
version's typeof check documents the intended domain). -/
def serverValidate2 (analysis : Json) : Judgment :=
  let score : ℤ :=
    clamp (jsRound (match analysis.getField "score" with
      | some (.num q) => if q ≠ 0 then q else 50
      | _ => 50))
  let explicitTrue : Bool :=
    match analysis.getField "qualified" with
    | some (.bool true) => true
    | _ => false
  let qualified : Bool := explicitTrue || decide (score ≥ 60)
  let reasoning : String :=
    match analysis.getField "reasoning" with
    | some (.str s) =>
        if s ≠ "" then s
        else "AI analysis completed but no detailed reasoning provided."
    | _ => "AI analysis completed but no detailed reasoning provided."
  let criteria : List String :=
    match analysis.getField "qualificationCriteria" with
    | some (.arr xs) => (xs.take 5).filterMap Json.asStr
    | _ => []
  ⟨score, qualified, reasoning, criteria⟩

/-- `analysis.qualified === true` on a parsed payload. -/
def isExplicitTrue (analysis : Json) : Bool :=
  match analysis.getField "qualified" with
  | some (.bool true) => true
  | _ => false

/-- The JSON body the server route sends back for a judgment
(`res.json({score, qualified, reasoning, qualificationCriteria})`; the
success branch adds `success`/`processingTime` fields, which the client
never reads, so they are omitted). -/
def encodeJudgment (j : Judgment) : Json :=
  .obj [("score", .num (j.score : ℚ)),
        ("qualified", .bool j.qualified),
        ("reasoning", .str j.reasoning),
        ("qualificationCriteria", .arr (j.qualificationCriteria.map Json.str))]

/-! ## Client: per-lead processing (`src/client/src/lib/lead-processor.ts`,
`processLead`, lines 126–252) -/

/-- Client-side validation of the analysis body (`lead-processor.ts`
159–172): requires a numeric `score` and a boolean `qualified`
(`none` models the `throw new Error('Invalid response format ...')`);
on success the result spreads the lead and adds the four judgment
fields.  `analysis.reasoning || 'AI analysis completed successfully.'`
is modelled for string-or-absent reasoning fields (the only shapes the
server body can carry). -/
def clientValidate (lead : Lead) (analysis : Json) : Option ProcessedLead :=
  match analysis.getField "score", analysis.getField "qualified" with
  | some (.num q), some (.bool b) =>
      some { toLead := lead
             score := clamp (jsRound q)
             qualified := b
             reasoning :=
               match analysis.getField "reasoning" with
               | some (.str s) =>
                   if s ≠ "" then s else "AI analysis completed successfully."
               | _ => "AI analysis completed successfully."
             qualificationCriteria :=
               match analysis.getField "qualificationCriteria" with
               | some (.arr xs) => xs.filterMap Json.asStr
               | _ => [] }
  | _, _ => none

/-- Timeout-retry path (`lead-processor.ts` 188–195): when the first
call aborted and the bare retry responded OK, the body is consumed
without the typeof validation; a falsy score (absent/null/0) becomes 50,
`qualified` is the field's truthiness, reasoning/criteria as in the main
path but with the retry default message. -/
def clientRetry (lead : Lead) (analysis : Json) : ProcessedLead :=
  { toLead := lead
    score := clamp (jsRound (match analysis.getField "score" with
      | some (.num q) => if q ≠ 0 then q else 50
      | _ => 50))
    qualified :=
      match analysis.getField "qualified" with
      | some v => v.truthy
      | none => false
    reasoning :=
      match analysis.getField "reasoning" with
      | some (.str s) => if s ≠ "" then s else "AI analysis completed on retry."
      | _ => "AI analysis completed on retry."
    qualificationCriteria :=
      match analysis.getField "qualificationCriteria" with
      | some (.arr xs) => xs.filterMap Json.asStr
      | _ => [] }

/-- Client-side rule fallback (`lead-processor.ts` 202–237): base 45,
+10 tech industry, +15 enterprise size, +20 ceo/founder/director title,
+10 phone-or-email, +5 named contact; qualified at 60; clamped; the
reasoning sentence lists the fired criteria. -/
def clientFallback (lead : Lead) : ProcessedLead :=
  let b1 := optIncludes lead.industry "tech"
  let b2 := optIncludes lead.companySize "enterprise"
  let b3 :=
    match lead.title with
    | some t => decide (t ≠ "") &&
        (strIncludes (jsToLower t) "ceo" || strIncludes (jsToLower t) "founder" ||
         strIncludes (jsToLower t) "director")
    | none => false
  let b4 := optTruthy lead.phone || optTruthy lead.email
  let b5 := optTruthy lead.contactName
  let score : ℤ := 45 + (if b1 then 10 else 0) + (if b2 then 15 else 0) +
    (if b3 then 20 else 0) + (if b4 then 10 else 0) + (if b5 then 5 else 0)
  let criteria : List String :=
    (if b1 then ["Tech industry"] else []) ++
    (if b2 then ["Enterprise company"] else []) ++
    (if b3 then ["Senior executive"] else []) ++
    (if b4 then ["Contact details available"] else []) ++
    (if b5 then ["Named contact"] else [])
  { toLead := lead
    score := clamp score
    qualified := decide (score ≥ 60)
    reasoning := "Lead scored based on available data: " ++
      (if criteria.length > 0 then String.intercalate ", " criteria
       else "Basic contact information available") ++ "."
    qualificationCriteria := criteria }

/-- Ultimate client fallback (`lead-processor.ts` 243–249): used only if
the rule fallback itself were to throw (it cannot for a well-typed
`Lead`, so this branch is unreachable in the embedding, but it is a path
of the source and its judgment is checked by the invariants). -/
def ultimateFallback (lead : Lead) : ProcessedLead :=
  { toLead := lead
    score := 35
    qualified := false
    reasoning := "Technical issue occurred during processing. Lead has been preserved for manual review."
    qualificationCriteria := ["Manual review recommended", "System fallback applied"] }

/-- The orchestrator-level catch fallback (`lead-processor.ts` 64–70):
only reachable if `processLead` rejected, which it never does (every
branch of its try/catch returns), so this, too, is dead code kept for
the frame invariant. -/
def orchestratorCatch (lead : Lead) (msg : String) : ProcessedLead :=
  { toLead := lead
    score := 35
    qualified := false
    reasoning := "Processing error: " ++ msg ++ ". Using fallback scoring."
    qualificationCriteria := ["Requires manual review"] }

/-- Outcome of the bare retry fetch issued after an abort
(`lead-processor.ts` 181–199). -/
inductive RetryEnv where
  | rOk (ai : Option Json)
  | rNotOk
  | rThrow
deriving Repr

/-- What the single `fetch('/api/analyze-lead')` for one lead observed:
`okResp ai` — HTTP 200 whose body is the server route's judgment for the
AI outcome `ai`; `notOk s` — a non-2xx status (400 validation failure,
429 rate limit, 500); `abort r` — the 12 s timeout fired, with the
retry's outcome `r`; `fetchThrow` — the fetch itself (or reading the
body) threw for another reason. -/
inductive LeadEnv where
  | okResp (ai : Option Json)
  | notOk (status : ℕ)
  | abort (r : RetryEnv)
  | fetchThrow
deriving Repr

/-- `processLead` (`lead-processor.ts` 126–252).  An empty `lead.id`
throws before the fetch and is absorbed by the catch into the rule
fallback; a 200 body is validated (the body itself being the server
route's encoded judgment); every failure path lands in the rule
fallback. -/
def processLead (lead : Lead) (env : LeadEnv) : ProcessedLead :=
  if lead.id = "" then clientFallback lead
  else
    match env with
    | .okResp ai =>
        match clientValidate lead (encodeJudgment (serverJudge lead ai)) with
        | some pl => pl
        | none => clientFallback lead
    | .notOk _ => clientFallback lead
    | .fetchThrow => clientFallback lead
    | .abort r =>
        match r with
        | .rOk ai => clientRetry lead (encodeJudgment (serverJudge lead ai))
        | _ => clientFallback lead

/-- The environments in which the AI scoring call for a lead fails
outright (no usable 200 body on either attempt). -/
def envFails : LeadEnv → Prop
  | .okResp _ => False
  | .abort (.rOk _) => False
  | _ => True

/-! ## Client: batch orchestrator and aggregation
(`lead-processor.ts`, `processLeads`, lines 19–124) -/

/-- `batchSize = 2` (`lead-processor.ts` line 33). -/
def batchSize : ℕ := 2

/-- One item of a batch's `Promise.all` (`lead-processor.ts` 46–75): the
try body returns `{success: true, lead: processedLead}`; the catch
(which would return `success: false` and bump `totalErrors`) requires
`processLead` to reject, which it never does. -/
def runBatchItem (env : ℕ → LeadEnv) (gi : ℕ) (lead : Lead) :
    Bool × ProcessedLead :=
  (true, processLead lead (env gi))

/-- The batch loop (`lead-processor.ts` 36–112) with `batchSize = 2`:
`slice(i, i+2)` is dispatched, `Promise.all` joins the batch results in
positional (input) order, they are appended, and the loop continues at
`i + 2`.  `gi` is the global index of the first pending lead. -/
def processLeadsGo (env : ℕ → LeadEnv) : ℕ → List Lead → List (Bool × ProcessedLead)
  | _, [] => []
  | gi, [a] => [runBatchItem env gi a]
  | gi, a :: b :: rest =>
      runBatchItem env gi a :: runBatchItem env (gi + 1) b ::
        processLeadsGo env (gi + 2) rest

/-- The per-result accumulation (`lead-processor.ts` 81–88):
`qualifiedCount` and `totalScore` folded over the results in output
order. -/
def accumStats (rs : List ProcessedLead) : ℕ × ℤ :=
  rs.foldl (fun acc r => (if r.qualified then acc.1 + 1 else acc.1, acc.2 + r.score)) (0, 0)

/-- The final statistics (`lead-processor.ts` 114–121). -/
def mkStats (totalLeads : ℕ) (rs : List ProcessedLead) : ProcessingStats :=
  { totalLeads := totalLeads
    processedLeads := rs.length
    qualifiedLeads := (accumStats rs).1
    notQualifiedLeads := rs.length - (accumStats rs).1
    averageScore := ((accumStats rs).2 : ℚ) / (rs.length : ℚ)
    qualificationRate := ((accumStats rs).1 : ℚ) / (rs.length : ℚ) * 100 }

/-- What `processLeads` returns, plus the final value of its
`totalErrors` counter (reported to the caller through the progress
callback's `errors` field). -/
structure RunResult where
  leads : List ProcessedLead
  stats : ProcessingStats
  errors : ℕ
deriving DecidableEq, Repr

/-- `processLeads` (`lead-processor.ts` 19–124).  The rubric
(`businessSetup`) is only serialized into the AI prompt, whose effect is
already abstracted by `env`; no client-side validation of it (or of the
lead list) exists in the source. -/
def processLeadsModel (leads : List Lead) (businessSetup : BusinessSetup)
    (env : ℕ → LeadEnv) : RunResult :=
  let rs := processLeadsGo env 0 leads
  let out := rs.map Prod.snd
  { leads := out
    stats := mkStats leads.length out
    errors := rs.countP (fun r => !r.fst) }

/-! ## Abstract schedule model for the concurrency cap -/

/-- Batch number of the lead at global index `k` (`Math.floor(i / batchSize)`
with `i` the loop counter; the lead at global index `k` belongs to batch
`k / 2`). -/
def batchOf (k : ℕ) : ℕ := k / batchSize

/-- The set of scoring calls in flight at abstract time `t`, for a run
of `n` leads whose call `i` starts at `s i` and settles at `e i`. -/
def inFlight (n : ℕ) (s e : ℕ → ℕ) (t : ℕ) : Finset ℕ :=
  (Finset.range n).filter (fun i => s i ≤ t ∧ t < e i)

/-! ## Helper lemmas -/

/-- `Math.round` is the identity on integral JSON numbers. -/
lemma jsRound_intCast (k : ℤ) : jsRound (k : ℚ) = k := by
  unfold jsRound
  rw [add_comm, Int.floor_add_int]
  norm_num

lemma clamp_nonneg (x : ℤ) : 0 ≤ clamp x := le_max_left 0 _

lemma clamp_le_hundred (x : ℤ) : clamp x ≤ 100 :=
  max_le (by norm_num) (min_le_left 100 x)

lemma clamp_of_bounds {x : ℤ} (h0 : 0 ≤ x) (h1 : x ≤ 100) : clamp x = x := by
  unfold clamp
  omega

lemma length_ite_append4 (b1 b2 b3 b4 : Bool) (x1 x2 x3 x4 : String) :
    ((if b1 then [x1] else []) ++ (if b2 then [x2] else []) ++
     (if b3 then [x3] else []) ++ (if b4 then [x4] else [])).length ≤ 4 := by
  cases b1 <;> cases b2 <;> cases b3 <;> cases b4 <;> simp

lemma length_ite_append5 (b1 b2 b3 b4 b5 : Bool) (x1 x2 x3 x4 x5 : String) :
    ((if b1 then [x1] else []) ++ (if b2 then [x2] else []) ++
     (if b3 then [x3] else []) ++ (if b4 then [x4] else []) ++
     (if b5 then [x5] else [])).length ≤ 5 := by
  cases b1 <;> cases b2 <;> cases b3 <;> cases b4 <;> cases b5 <;> simp

lemma filterMap_asStr_map_str (cs : List String) :
    (cs.map Json.str).filterMap Json.asStr = cs := by
  induction cs with
  | nil => rfl
  | cons c cs ih => simp [Json.asStr, ih]

lemma encode_getField_score (j : Judgment) :
    (encodeJudgment j).getField "score" = some (.num (j.score : ℚ)) := rfl

lemma encode_getField_qualified (j : Judgment) :
    (encodeJudgment j).getField "qualified" = some (.bool j.qualified) := rfl

lemma encode_getField_reasoning (j : Judgment) :
    (encodeJudgment j).getField "reasoning" = some (.str j.reasoning) := rfl

lemma encode_getField_criteria (j : Judgment) :
    (encodeJudgment j).getField "qualificationCriteria" =
      some (.arr (j.qualificationCriteria.map Json.str)) := rfl

/-- The client's validation of the server body always succeeds, and the
round trip is transparent up to the client's re-clamp and its own empty-
reasoning default. -/
lemma clientValidate_encode (lead : Lead) (j : Judgment) :
    clientValidate lead (encodeJudgment j) =
      some { toLead := lead
             score := clamp j.score
             qualified := j.qualified
             reasoning :=
               if j.reasoning ≠ "" then j.reasoning
               else "AI analysis completed successfully."
             qualificationCriteria := j.qualificationCriteria } := by
  unfold clientValidate
  rw [encode_getField_score, encode_getField_qualified]
  simp only [encode_getField_reasoning, encode_getField_criteria,
    filterMap_asStr_map_str, jsRound_intCast]

/-- The retry path consumes the server body without typeof validation;
its score re-round is the identity on the server's integral scores
(with the `score || 50` falsy quirk), and criteria pass through. -/
lemma clientRetry_encode (lead : Lead) (j : Judgment) :
    clientRetry lead (encodeJudgment j) =
      { toLead := lead
        score := if j.score = 0 then 50 else clamp j.score
        qualified := j.qualified
        reasoning :=
          if j.reasoning ≠ "" then j.reasoning
          else "AI analysis completed on retry."
        qualificationCriteria := j.qualificationCriteria } := by
  unfold clientRetry
  rw [encode_getField_score, encode_getField_qualified]
  simp only [encode_getField_reasoning, encode_getField_criteria,
    filterMap_asStr_map_str, Json.truthy]
  by_cases h : j.score = 0
  · simp [h]
    norm_num [jsRound]
    decide
  · have hq : ((j.score : ℚ) ≠ 0) := by exact_mod_cast h
    simp [h, hq, jsRound_intCast]

/-- Sanitized server judgments are clamped and capped. -/
lemma serverValidate_bounds (analysis : Json) :
    0 ≤ (serverValidate analysis).score ∧ (serverValidate analysis).score ≤ 100 ∧
      (serverValidate analysis).qualificationCriteria.length ≤ 5 := by
  unfold serverValidate
  refine ⟨?_, ?_, ?_⟩ <;> dsimp only
  · split
    · exact clamp_nonneg _
    · norm_num
  · split
    · exact clamp_le_hundred _
    · norm_num
  · split
    · simp only [List.length_map]
      exact le_trans (List.length_take_le 5 _) le_rfl
    · simp

lemma serverFallback_bounds (lead : Lead) :
    0 ≤ (serverFallback lead).score ∧ (serverFallback lead).score ≤ 100 ∧
      (serverFallback lead).qualificationCriteria.length ≤ 5 := by
  refine ⟨clamp_nonneg _, clamp_le_hundred _, ?_⟩
  exact le_trans (length_ite_append4 _ _ _ _ _ _ _ _) (by norm_num)

lemma serverJudge_bounds (lead : Lead) (ai : Option Json) :
    0 ≤ (serverJudge lead ai).score ∧ (serverJudge lead ai).score ≤ 100 ∧
      (serverJudge lead ai).qualificationCriteria.length ≤ 5 := by
  cases ai with
  | some analysis => exact serverValidate_bounds analysis
  | none => exact serverFallback_bounds lead

lemma clientFallback_bounds (lead : Lead) :
    0 ≤ (clientFallback lead).score ∧ (clientFallback lead).score ≤ 100 ∧
      (clientFallback lead).qualificationCriteria.length ≤ 5 := by
  refine ⟨clamp_nonneg _, clamp_le_hundred _, ?_⟩
  exact length_ite_append5 _ _ _ _ _ _ _ _ _ _

lemma ultimateFallback_bounds (lead : Lead) :
    0 ≤ (ultimateFallback lead).score ∧ (ultimateFallback lead).score ≤ 100 ∧
      (ultimateFallback lead).qualificationCriteria.length ≤ 5 := by
  refine ⟨by norm_num [ultimateFallback], by norm_num [ultimateFallback],
    by simp [ultimateFallback]⟩

lemma processLead_bounds (lead : Lead) (env : LeadEnv) :
    0 ≤ (processLead lead env).score ∧ (processLead lead env).score ≤ 100 ∧
      (processLead lead env).qualificationCriteria.length ≤ 5 := by
  unfold processLead
  split
  · exact clientFallback_bounds lead
  · cases env with
    | okResp ai =>
        dsimp only
        rw [clientValidate_encode lead (serverJudge lead ai)]
        exact ⟨clamp_nonneg _, clamp_le_hundred _, (serverJudge_bounds lead ai).2.2⟩
    | notOk s => exact clientFallback_bounds lead
    | fetchThrow => exact clientFallback_bounds lead
    | abort r =>
        cases r with
        | rOk ai =>
            dsimp only
            rw [clientRetry_encode lead (serverJudge lead ai)]
            refine ⟨?_, ?_, (serverJudge_bounds lead ai).2.2⟩ <;> dsimp only <;> split
            · norm_num
            · exact clamp_nonneg _
            · norm_num
            · exact clamp_le_hundred _
        | rNotOk => exact clientFallback_bounds lead
        | rThrow => exact clientFallback_bounds lead

/-- The batch loop joins results positionally: element `k` of the output
is the try-result of lead `k` under its own environment, the output has
one entry per pending lead, and no item ever carries `success = false`
(`processLead` returns in every branch, so the orchestrator's catch is
unreachable). -/
lemma processLeadsGo_spec (env : ℕ → LeadEnv) :
    ∀ (n : ℕ) (pending : List Lead), pending.length ≤ n → ∀ gi : ℕ,
      (processLeadsGo env gi pending).length = pending.length ∧
      (∀ k : ℕ, (processLeadsGo env gi pending)[k]? =
        (pending[k]?).map (fun l => (true, processLead l (env (gi + k))))) ∧
      (processLeadsGo env gi pending).countP (fun r => !r.fst) = 0 := by
  intro n
  induction n with
  | zero =>
      intro pending h gi
      have hp : pending = [] := List.eq_nil_of_length_eq_zero (Nat.le_zero.mp h)
      subst hp
      exact ⟨rfl, fun k => by simp [processLeadsGo], rfl⟩
  | succ n ih =>
      intro pending h gi
      cases pending with
      | nil => exact ⟨rfl, fun k => by simp [processLeadsGo], rfl⟩
      | cons a rest =>
        cases rest with
        | nil =>
            refine ⟨rfl, ?_, by simp [processLeadsGo, List.countP_cons, runBatchItem]⟩
            intro k
            cases k with
            | zero => simp [processLeadsGo, runBatchItem]
            | succ k' => simp [processLeadsGo]
        | cons b rest' =>
            have hr : rest'.length ≤ n := by
              simp only [List.length_cons] at h
              omega
            obtain ⟨ihl, ihg, ihc⟩ := ih rest' hr (gi + 2)
            refine ⟨?_, ?_, ?_⟩
            · simp [processLeadsGo, ihl]
            · intro k
              cases k with
              | zero => simp [processLeadsGo, runBatchItem]
              | succ k' =>
                cases k' with
                | zero => simp [processLeadsGo, runBatchItem]
                | succ k'' =>
                    simp only [processLeadsGo, List.getElem?_cons_succ]
                    rw [ihg k'']
                    have e : gi + 2 + k'' = gi + (k'' + 1 + 1) := by omega
                    rw [e]
            · simp [processLeadsGo, List.countP_cons, runBatchItem, ihc]

/-- Wrapper with the length bound discharged. -/
lemma processLeadsGo_spec' (env : ℕ → LeadEnv) (pending : List Lead) (gi : ℕ) :
    (processLeadsGo env gi pending).length = pending.length ∧
      (∀ k : ℕ, (processLeadsGo env gi pending)[k]? =
        (pending[k]?).map (fun l => (true, processLead l (env (gi + k))))) ∧
      (processLeadsGo env gi pending).countP (fun r => !r.fst) = 0 :=
  processLeadsGo_spec env pending.length pending le_rfl gi

/-- The loop counters equal count/sum over the result list. -/
lemma accumStats_spec (rs : List ProcessedLead) :
    (accumStats rs).1 = rs.countP (fun r => r.qualified) ∧
      (accumStats rs).2 = (rs.map (fun r => r.score)).sum := by
  suffices h : ∀ (l : List ProcessedLead) (qc : ℕ) (ts : ℤ),
      l.foldl (fun acc r => (if r.qualified then acc.1 + 1 else acc.1, acc.2 + r.score))
          (qc, ts) =
        (qc + l.countP (fun r => r.qualified), ts + (l.map (fun r => r.score)).sum) by
    unfold accumStats
    rw [h rs 0 0]
    simp
  intro l
  induction l with
  | nil => intro qc ts; simp
  | cons r l ih =>
      intro qc ts
      cases hq : r.qualified
      · simp [List.countP_cons, ih, hq, Prod.ext_iff]
        omega
      · simp [List.countP_cons, ih, hq, Prod.ext_iff]
        omega

/-! ## Claim theorems -/

/-- The §8 test payload for the Response Validator. -/
def c3Payload : Json :=
  .obj [("score", .num 150), ("qualified", .str "yes"), ("reasoning", .str ""),
        ("qualificationCriteria",
          .arr [.str "a", .str "b", .str "c", .str "d", .str "e", .str "f"])]

/-- C3: for the payload `{"score": 150, "qualified": "yes", "reasoning": "",
"qualificationCriteria": ["a","b","c","d","e","f"]}` the Response Validator
(`routes.ts` 163–181) yields score 100 (rounded and clamped), qualified
`true` (derived from `100 ≥ 60` because `"yes"` is not a boolean), the
generic default reasoning (the input reasoning is empty), and the criteria
list truncated to its first 5 entries. -/
theorem c3_response_validator_concrete :
    (serverValidate c3Payload).score = 100 ∧
    (serverValidate c3Payload).qualified = true ∧
    (serverValidate c3Payload).reasoning = "AI analysis completed successfully." ∧
    (serverValidate c3Payload).qualificationCriteria = ["a", "b", "c", "d", "e"] := by
  have h150 : jsRound 150 = 150 := by norm_num [jsRound]
  refine ⟨?_, ?_, ?_, ?_⟩
  · show clamp (jsRound 150) = 100
    rw [h150]
    decide
  · show decide (clamp (jsRound 150) ≥ 60) = true
    rw [h150]
    decide
  · decide
  · decide

/-- C5: every judgment produced by any path of the pipeline — the server
response validator on an arbitrary parsed payload, the server rule
fallback, the composed per-lead client pipeline `processLead` under any
environment (AI-validated, timeout-retry, or rule-fallback path), the
client rule fallback, and the ultimate fallback — has `0 ≤ score ≤ 100`
and at most 5 qualification criteria. -/
theorem c5_judgment_bounds (lead : Lead) (env : LeadEnv) (analysis : Json) :
    (0 ≤ (serverValidate analysis).score ∧ (serverValidate analysis).score ≤ 100 ∧
      (serverValidate analysis).qualificationCriteria.length ≤ 5) ∧
    (0 ≤ (serverFallback lead).score ∧ (serverFallback lead).score ≤ 100 ∧
      (serverFallback lead).qualificationCriteria.length ≤ 5) ∧
    (0 ≤ (processLead lead env).score ∧ (processLead lead env).score ≤ 100 ∧
      (processLead lead env).qualificationCriteria.length ≤ 5) ∧
    (0 ≤ (clientFallback lead).score ∧ (clientFallback lead).score ≤ 100 ∧
      (clientFallback lead).qualificationCriteria.length ≤ 5) ∧
    (0 ≤ (ultimateFallback lead).score ∧ (ultimateFallback lead).score ≤ 100 ∧
      (ultimateFallback lead).qualificationCriteria.length ≤ 5) :=
  ⟨serverValidate_bounds analysis, serverFallback_bounds lead,
   processLead_bounds lead env, clientFallback_bounds lead,
   ultimateFallback_bounds lead⟩

/-- A well-formed `Lead` with every optional field absent. -/
def absentLead : Lead := { id := "lead-1" }

/-- C6: the Fallback Scorer (`lead-processor.ts` 202–237) is pure and
total — in this embedding it is a total function, so it cannot throw and
two calls on the same `Lead` are definitionally equal (first conjunct);
on a `Lead` with every optional field absent it yields the base score 45,
`qualified = false`, and an empty criteria list (second conjunct, which
also pins the generic reasoning message). -/
theorem c6_fallback_scorer_pure_total :
    (∀ l : Lead, clientFallback l = clientFallback l) ∧
    clientFallback absentLead =
      { toLead := absentLead, score := 45, qualified := false,
        reasoning := "Lead scored based on available data: Basic contact information available.",
        qualificationCriteria := [] } :=
  ⟨fun _ => rfl, by decide⟩

/-- A `ProcessedLead` carrying only the fields the Aggregator reads. -/
def samplePL (score : ℤ) (qualified : Bool) : ProcessedLead :=
  { toLead := { id := "s" }, score := score, qualified := qualified,
    reasoning := "r", qualificationCriteria := [] }

/-- Ten processed leads, 6 qualified, scores summing to 650. -/
def sampleTen : List ProcessedLead :=
  [samplePL 80 true, samplePL 80 true, samplePL 80 true, samplePL 80 true,
   samplePL 80 true, samplePL 80 true, samplePL 50 false, samplePL 50 false,
   samplePL 50 false, samplePL 20 false]

/-- C7: on 10 ProcessedLeads with 6 qualified and scores summing to 650
the Aggregator (`lead-processor.ts` 114–121) reports `qualifiedLeads = 6`,
`notQualifiedLeads = 4`, `averageScore = 65`, `qualificationRate = 60`;
in general `qualifiedLeads` counts the qualified entries,
`notQualifiedLeads` is the remainder, `averageScore` is the arithmetic
mean of the scores, and `qualificationRate` is
`qualifiedLeads / processedLeads * 100`. -/
theorem c7_aggregator :
    ((mkStats 10 sampleTen).qualifiedLeads = 6 ∧
     (mkStats 10 sampleTen).notQualifiedLeads = 4 ∧
     (mkStats 10 sampleTen).averageScore = 65 ∧
     (mkStats 10 sampleTen).qualificationRate = 60) ∧
    ∀ (total : ℕ) (rs : List ProcessedLead),
      (mkStats total rs).totalLeads = total ∧
      (mkStats total rs).processedLeads = rs.length ∧
      (mkStats total rs).qualifiedLeads = rs.countP (fun r => r.qualified) ∧
      (mkStats total rs).notQualifiedLeads =
        rs.length - rs.countP (fun r => r.qualified) ∧
      (mkStats total rs).averageScore =
        (((rs.map (fun r => r.score)).sum : ℤ) : ℚ) / (rs.length : ℚ) ∧
      (mkStats total rs).qualificationRate =
        (rs.countP (fun r => r.qualified) : ℚ) / (rs.length : ℚ) * 100 := by
  constructor
  · have hqc : (accumStats sampleTen).1 = 6 := by decide
    have hts : (accumStats sampleTen).2 = 650 := by decide
    have hlen : sampleTen.length = 10 := by decide
    refine ⟨?_, ?_, ?_, ?_⟩
    · show (accumStats sampleTen).1 = 6
      exact hqc
    · show sampleTen.length - (accumStats sampleTen).1 = 4
      rw [hqc, hlen]
    · show ((accumStats sampleTen).2 : ℚ) / (sampleTen.length : ℚ) = 65
      rw [hts, hlen]
      norm_num
    · show ((accumStats sampleTen).1 : ℚ) / (sampleTen.length : ℚ) * 100 = 60
      rw [hqc, hlen]
      norm_num
  · intro total rs
    obtain ⟨h1, h2⟩ := accumStats_spec rs
    exact ⟨rfl, rfl, h1, by rw [show (mkStats total rs).notQualifiedLeads =
        rs.length - (accumStats rs).1 from rfl, h1],
      by rw [show (mkStats total rs).averageScore =
        ((accumStats rs).2 : ℚ) / (rs.length : ℚ) from rfl, h2],
      by rw [show (mkStats total rs).qualificationRate =
        ((accumStats rs).1 : ℚ) / (rs.length : ℚ) * 100 from rfl, h1]⟩

/-- C1: for every non-empty lead list, valid rubric, and environment,
the pipeline output has exactly one `ProcessedLead` per input lead and
element `k` of the output is derived from input lead `k` (under lead
`k`'s own environment); order is preserved because `Promise.all` joins
the batch results positionally, which the embedding's loop reflects, so
the result is independent of task completion order. -/
theorem c1_order_and_length (leads : List Lead) (businessSetup : BusinessSetup)
    (env : ℕ → LeadEnv) (h : leads ≠ []) :
    (processLeadsModel leads businessSetup env).leads.length = leads.length ∧
    ∀ k : ℕ, (processLeadsModel leads businessSetup env).leads[k]? =
      (leads[k]?).map (fun l => processLead l (env k)) := by
  obtain ⟨hl, hg, _⟩ := processLeadsGo_spec' env leads 0
  constructor
  · show ((processLeadsGo env 0 leads).map Prod.snd).length = leads.length
    rw [List.length_map, hl]
  · intro k
    show ((processLeadsGo env 0 leads).map Prod.snd)[k]? =
      (leads[k]?).map (fun l => processLead l (env k))
    rw [List.getElem?_map, hg k]
    cases leads[k]? <;> simp

/-- A concrete lead with contact data. -/
def wLead1 : Lead := { id := "1", email := some "a@b.c" }

/-- A concrete lead with no optional fields. -/
def wLead2 : Lead := { id := "2" }

/-- A concrete lead in a tech industry. -/
def wLead3 : Lead := { id := "3", industry := some "Technology" }

/-- A concrete valid rubric. -/
def wSetup : BusinessSetup :=
  { businessDescription := "We sell enterprise software.",
    campaignGoals := "Find qualified buyers." }

/-- An environment in which every AI scoring call fails at the fetch. -/
def wEnvFail : ℕ → LeadEnv := fun _ => .fetchThrow

/-- Witness for C1 at a concrete non-empty input. -/
theorem c1_order_and_length_witness :
    (processLeadsModel [wLead1, wLead2, wLead3] wSetup wEnvFail).leads.length = 3 :=
  (c1_order_and_length [wLead1, wLead2, wLead3] wSetup wEnvFail (by simp)).1

/-- An environment that fails a lead's call never reaches a usable 200
body, so `processLead` lands in the client rule fallback. -/
lemma envFails_processLead (lead : Lead) (e : LeadEnv) (h : envFails e) :
    processLead lead e = clientFallback lead := by
  unfold processLead
  split
  · rfl
  · cases e with
    | okResp ai => exact h.elim
    | notOk s => rfl
    | fetchThrow => rfl
    | abort r =>
        cases r with
        | rOk ai => exact h.elim
        | rNotOk => rfl
        | rThrow => rfl

/-- C2 counterexample: under simulated 100 % AI-service failure on one
lead, the error count reported by `processLeads` is 0, not the input
length — `processLead` absorbs every failure internally (its catch-all
returns the rule fallback), so the orchestrator's `totalErrors` counter
(line 59, incremented only when `processLead` rejects) never moves. -/
theorem c2_error_count_counterexample :
    (processLeadsModel [wLead1] wSetup (fun _ => LeadEnv.fetchThrow)).errors ≠
      ([wLead1] : List Lead).length := by
  decide

/-- C2 amended: under 100 % AI-service failure the run still completes
with one `ProcessedLead` per input lead, every output is exactly the
rule-based Fallback Scorer's judgment for the corresponding lead (the
only fallback tag the code provides is that judgment's reasoning
prefix), and the reported error count is 0 — not the input length —
because per-lead failures are absorbed inside `processLead` before the
orchestrator's error counter can see them. -/
theorem c2_all_fail_amended (leads : List Lead) (businessSetup : BusinessSetup)
    (env : ℕ → LeadEnv) (hf : ∀ i, envFails (env i)) (hne : leads ≠ []) :
    (processLeadsModel leads businessSetup env).leads.length = leads.length ∧
    (∀ k : ℕ, (processLeadsModel leads businessSetup env).leads[k]? =
      (leads[k]?).map clientFallback) ∧
    (processLeadsModel leads businessSetup env).errors = 0 := by
  obtain ⟨hl, hg, hc⟩ := processLeadsGo_spec' env leads 0
  refine ⟨?_, ?_, hc⟩
  · show ((processLeadsGo env 0 leads).map Prod.snd).length = leads.length
    rw [List.length_map, hl]
  · intro k
    show ((processLeadsGo env 0 leads).map Prod.snd)[k]? =
      (leads[k]?).map clientFallback
    rw [List.getElem?_map, hg k]
    cases leads[k]? with
    | none => rfl
    | some l =>
        simp
        exact envFails_processLead l (env k) (hf k)

/-- Witness for the amended C2 at a concrete all-fail run. -/
theorem c2_all_fail_amended_witness :
    (processLeadsModel [wLead1] wSetup (fun _ => LeadEnv.fetchThrow)).errors = 0 :=
  (c2_all_fail_amended [wLead1] wSetup (fun _ => LeadEnv.fetchThrow)
    (fun _ => trivial) (by simp)).2.2

/-- A lead with an empty identifier (violates the claimed precondition). -/
def noIdLead : Lead := { id := "", email := some "x@y.z" }

/-- C8 counterexample: a run whose single lead has an empty identifier
is not rejected and no structured error is returned — `processLeads` has
no input validation; the `throw new Error('Lead ID is required')` is
caught inside `processLead` itself, so the lead is scored by the rule
fallback (score 55 here: base 45 + 10 for contact details) and a full
result is produced. -/
theorem c8_no_validation_counterexample :
    (processLeadsModel [noIdLead] wSetup (fun _ => LeadEnv.notOk 400)).leads =
      [clientFallback noIdLead] ∧
    (clientFallback noIdLead).score = 55 := by
  constructor
  · show [(processLead noIdLead (LeadEnv.notOk 400))] = [clientFallback noIdLead]
    decide
  · decide

/-- C8 amended: the pipeline entry point performs no input validation
and never returns a structured error.  An empty lead list yields an
empty result (with degenerate statistics) and error count 0; a lead with
an empty identifier is scored by the rule-based fallback (the thrown
validation error is absorbed inside `processLead`); a rubric rejected by
the server per call (HTTP 400) is likewise absorbed into fallback
scoring rather than surfaced. -/
theorem c8_no_validation_amended (businessSetup : BusinessSetup)
    (env : ℕ → LeadEnv) (lead : Lead) (e : LeadEnv) :
    (processLeadsModel [] businessSetup env).leads = [] ∧
    (processLeadsModel [] businessSetup env).errors = 0 ∧
    (lead.id = "" → processLead lead e = clientFallback lead) ∧
    processLead lead (.notOk 400) = clientFallback lead := by
  refine ⟨rfl, rfl, ?_, ?_⟩
  · intro hid
    unfold processLead
    rw [if_pos hid]
  · unfold processLead
    split
    · rfl
    · rfl

/-- Witness for the amended C8 at the concrete empty-identifier lead. -/
theorem c8_no_validation_amended_witness :
    processLead noIdLead (.okResp none) = clientFallback noIdLead :=
  (c8_no_validation_amended wSetup (fun _ => LeadEnv.fetchThrow) noIdLead
    (.okResp none)).2.2.1 rfl

/-- A payload with an explicit `qualified: false` and a score above the
threshold. -/
def c4Payload : Json := .obj [("score", .num 80), ("qualified", .bool false)]

/-- C4 counterexample: the claim says an explicit boolean `qualified`
always wins over the threshold (in particular explicit `false` is
honored when `score ≥ 60`), but the second validator version
(`routes.ts` 332–333, `analysis.qualified === true || score >= 60`)
maps `{"score": 80, "qualified": false}` to `qualified = true`. -/
theorem c4_explicit_false_counterexample :
    (serverValidate2 c4Payload).qualified = true := by
  have h80 : jsRound 80 = 80 := by norm_num [jsRound]
  have hif : (if (80 : ℚ) ≠ 0 then (80 : ℚ) else 50) = 80 := by norm_num
  have hsc : (serverValidate2 c4Payload).score = 80 := by
    show clamp (jsRound (if (80 : ℚ) ≠ 0 then (80 : ℚ) else 50)) = 80
    rw [hif, h80]
    decide
  have hq : (serverValidate2 c4Payload).qualified =
      (isExplicitTrue c4Payload || decide ((serverValidate2 c4Payload).score ≥ 60)) := rfl
  rw [hq, hsc]
  decide

/-- C4 amended: in the primary validator (`routes.ts` 168–170) an
explicit boolean `qualified` does win over the threshold; but in the
second validator version (`routes.ts` 332–333) `qualified` is computed
as `(analysis.qualified === true) || score ≥ 60`, so an explicit `false`
is overridden whenever the sanitized score reaches the threshold. -/
theorem c4_explicit_wins_amended (analysis : Json) (b : Bool) :
    (analysis.getField "qualified" = some (.bool b) →
      (serverValidate analysis).qualified = b) ∧
    (serverValidate2 analysis).qualified =
      (isExplicitTrue analysis || decide ((serverValidate2 analysis).score ≥ 60)) := by
  constructor
  · intro hb
    simp only [serverValidate, hb]
  · rfl

/-- A payload with an explicit `qualified: false` and score 90. -/
def c4wPayload : Json := .obj [("score", .num 90), ("qualified", .bool false)]

/-- Witness for the amended C4: the primary validator honors the
explicit `false` even at score 90. -/
theorem c4_explicit_wins_amended_witness :
    (serverValidate c4wPayload).qualified = false :=
  (c4_explicit_wins_amended c4wPayload false).1 rfl

/-- A successful client validation spreads the original lead. -/
lemma clientValidate_toLead (lead : Lead) (analysis : Json) (pl : ProcessedLead)
    (h : clientValidate lead analysis = some pl) : pl.toLead = lead := by
  unfold clientValidate at h
  split at h
  · have h' := Option.some.inj h
    subst h'
    rfl
  · exact Option.noConfusion h

/-- C10: every path of the per-lead pipeline — AI-validated, retry, rule
fallback, ultimate fallback, and the orchestrator's catch — preserves
all original `Lead` fields unchanged (`{...lead, ...}` spreads), adding
only the four judgment fields (`ProcessedLead extends Lead` carries
exactly `score`, `qualified`, `reasoning`, `qualificationCriteria`). -/
theorem c10_lead_fields_preserved (lead : Lead) (env : LeadEnv)
    (analysis : Json) (msg : String) :
    (processLead lead env).toLead = lead ∧
    (clientFallback lead).toLead = lead ∧
    (clientRetry lead analysis).toLead = lead ∧
    (ultimateFallback lead).toLead = lead ∧
    (orchestratorCatch lead msg).toLead = lead := by
  refine ⟨?_, rfl, rfl, rfl, rfl⟩
  unfold processLead
  split
  · rfl
  · cases env with
    | okResp ai =>
        dsimp only
        cases hcv : clientValidate lead (encodeJudgment (serverJudge lead ai)) with
        | some pl => exact clientValidate_toLead lead _ pl hcv
        | none => rfl
    | notOk s => rfl
    | fetchThrow => rfl
    | abort r =>
        cases r with
        | rOk ai => rfl
        | rNotOk => rfl
        | rThrow => rfl

/-- C9: abstract schedules of the batch loop.  The code awaits
`Promise.all` of batch `b` before dispatching batch `b + 1`
(`lead-processor.ts` 36–78), so in every execution the call for lead `i`
settles before any call of a later batch starts (`hseq`), and every call
takes positive time (`hdur`).  Under exactly these constraints, at no
time are more than `batchSize = 2` scoring calls in flight. -/
theorem c9_concurrency_cap (n : ℕ) (s e : ℕ → ℕ)
    (hdur : ∀ i < n, s i < e i)
    (hseq : ∀ i < n, ∀ j < n, batchOf i < batchOf j → e i < s j) :
    ∀ t : ℕ, (inFlight n s e t).card ≤ batchSize := by
  intro t
  rcases (inFlight n s e t).eq_empty_or_nonempty with he | hne
  · rw [he]
    simp [batchSize]
  · obtain ⟨i0, hi0⟩ := hne
    have hmem : ∀ j ∈ inFlight n s e t, j < n ∧ s j ≤ t ∧ t < e j := by
      intro j hj
      simp only [inFlight, Finset.mem_filter, Finset.mem_range] at hj
      exact ⟨hj.1, hj.2.1, hj.2.2⟩
    obtain ⟨hi0n, hsi0, hti0⟩ := hmem i0 hi0
    have hsame : ∀ j ∈ inFlight n s e t, batchOf j = batchOf i0 := by
      intro j hj
      obtain ⟨hjn, hsj, htj⟩ := hmem j hj
      by_contra hb
      rcases Nat.lt_or_ge (batchOf j) (batchOf i0) with hlt | hge
      · have hje := hseq j hjn i0 hi0n hlt
        omega
      · have hlt' : batchOf i0 < batchOf j :=
          lt_of_le_of_ne hge (fun hh => hb hh.symm)
        have hje := hseq i0 hi0n j hjn hlt'
        omega
    have hsub : inFlight n s e t ⊆ {2 * batchOf i0, 2 * batchOf i0 + 1} := by
      intro j hj
      have hb : j / 2 = i0 / 2 := hsame j hj
      have hj2 : j = 2 * (i0 / 2) ∨ j = 2 * (i0 / 2) + 1 := by omega
      simp only [Finset.mem_insert, Finset.mem_singleton]
      exact hj2
    calc (inFlight n s e t).card
        ≤ ({2 * batchOf i0, 2 * batchOf i0 + 1} : Finset ℕ).card :=
          Finset.card_le_card hsub
      _ ≤ 2 := le_trans (Finset.card_insert_le _ _) (by simp)
      _ ≤ batchSize := by norm_num [batchSize]

/-- Witness for C9: a concrete admissible schedule for 5 leads with
batch size 2 (each batch runs in its own unit time slot), checked at
time 2. -/
theorem c9_concurrency_cap_witness :
    (inFlight 5 (fun i => 2 * (i / 2)) (fun i => 2 * (i / 2) + 1) 2).card ≤
      batchSize :=
  c9_concurrency_cap 5 (fun i => 2 * (i / 2)) (fun i => 2 * (i / 2) + 1)
    (by decide) (by decide) 2

end LeadQualifier
